import Mathlib

/-!
Shallow embedding of the round-engine logic of the Gaming repository
(`src/src/components/GamePage.tsx`) and proofs about it.

Conventions of the embedding:
* JS numbers on the money/stake paths (balances, stakes, multipliers,
  bonus amounts) are modelled as `ℤ`; on those paths the program only
  ever adds, subtracts and multiplies integers.
* The two places where the source divides (`Math.round(jackpotBonus *
  (matchedCount / 4))` and `Math.round((serverEnd - now) / 1000)`) are
  modelled with exact rational arithmetic and `jsRound`, which is
  `Math.round` on the rationals (round half towards +∞).
* The weighted draw works on `Math.random()` reals; it is modelled over
  `ℚ`.
* React `useState` cells that an operation reads and writes are gathered
  into explicit state structures; each TypeScript handler becomes a pure
  state-to-state function.
-/

/-- The eight bettable items, exactly the `ItemId` union of the source. -/
inductive ItemId
  | honey
  | tomato
  | lemon
  | milk
  | pumpkin
  | zucchini
  | cola
  | water
  deriving DecidableEq, Repr

instance : Fintype ItemId :=
  ⟨⟨{ItemId.honey, ItemId.tomato, ItemId.lemon, ItemId.milk,
     ItemId.pumpkin, ItemId.zucchini, ItemId.cola, ItemId.water}, by decide⟩,
   by intro x; cases x <;> decide⟩

/-- The items in the iteration order of the `ITEMS` array of the source
(honey, tomato, lemon, milk, pumpkin, zucchini, cola, water); this is also
the key order of the `BetsState` record built by `buildEmptyBets`. -/
def allItems : List ItemId :=
  [ItemId.honey, ItemId.tomato, ItemId.lemon, ItemId.milk,
   ItemId.pumpkin, ItemId.zucchini, ItemId.cola, ItemId.water]

theorem mem_allItems (i : ItemId) : i ∈ allItems := by
  cases i <;> decide

theorem allItems_nodup : allItems.Nodup := by decide

/-- `VEG_ITEMS` of the source: the "vegetables" jackpot bucket. -/
def vegItems : List ItemId :=
  [ItemId.tomato, ItemId.lemon, ItemId.pumpkin, ItemId.zucchini]

/-- `DRINK_ITEMS` of the source: the "drinks" jackpot bucket (honey is
treated as a drink there). -/
def drinkItems : List ItemId :=
  [ItemId.milk, ItemId.cola, ItemId.water, ItemId.honey]

/-- `Math.round` on exact rationals: round half towards +∞. -/
def jsRound (q : ℚ) : ℤ := ⌊q + 1/2⌋

/-- Sum of all stakes of the current round: the `totalBet` memo of the
source, `Object.values(bets).reduce((sum, val) => sum + val, 0)`. -/
def totalBet (bets : ItemId → ℤ) : ℤ := (allItems.map bets).sum

/-- Result record of `computeJackpotWin` in the source. -/
structure JackpotWinResult where
  totalWin : ℤ
  matchedItems : List ItemId
  matchedCount : ℕ
  isExact4 : Bool
  bonus : ℤ
  baseWin : ℤ
  deriving Repr

/-- `computeJackpotWin` of the source (GamePage.tsx lines 170–197):
matched items, base win, exact-four detection, bonus and total payout of
a jackpot round. -/
def computeJackpotWin (jackpotItems : List ItemId) (bets : ItemId → ℤ)
    (itemMultiplier : ItemId → ℤ) (jackpotBonus : ℤ) : JackpotWinResult :=
  let matchedItems := jackpotItems.filter (fun id => 0 < bets id)
  let matchedCount := matchedItems.length
  let baseWin := (matchedItems.map (fun id => bets id * itemMultiplier id)).sum
  let hasAll4 := matchedCount == 4
  let hasOutsideBet :=
    allItems.any (fun id => !(jackpotItems.contains id) && decide (0 < bets id))
  let isExact4 := hasAll4 && !hasOutsideBet
  let bonus :=
    if isExact4 then jackpotBonus
    else jsRound ((jackpotBonus : ℚ) * ((matchedCount : ℚ) / 4))
  let totalWin := if 0 < matchedCount then baseWin + bonus else 0
  { totalWin := totalWin, matchedItems := matchedItems,
    matchedCount := matchedCount, isExact4 := isExact4,
    bonus := bonus, baseWin := baseWin }

lemma filter_length_eq_iff_all {g : List ItemId} (p : ItemId → Bool) :
    (g.filter p).length = g.length ↔ ∀ i ∈ g, p i :=
  List.filter_length_eq_length

lemma computeJackpotWin_isExact4_iff (g : List ItemId) (hlen : g.length = 4)
    (bets mult : ItemId → ℤ) (b : ℤ) :
    (computeJackpotWin g bets mult b).isExact4 = true ↔
      ((∀ i ∈ g, 0 < bets i) ∧ ∀ i, i ∉ g → ¬ 0 < bets i) := by
  simp only [computeJackpotWin, Bool.and_eq_true, beq_iff_eq, Bool.not_eq_true',
    List.any_eq_false, Bool.and_eq_false_iff, Bool.not_eq_false']
  constructor
  · rintro ⟨h4, hout⟩
    have hall : ∀ i ∈ g, decide (0 < bets i) = true := by
      have := (filter_length_eq_iff_all (g := g) (fun id => decide (0 < bets id))).mp
        (by rw [h4, hlen])
      exact this
    refine ⟨fun i hi => by simpa using hall i hi, fun i hig hpos => ?_⟩
    exact hout i (mem_allItems i) ⟨by simpa using hig, by simpa using hpos⟩
  · rintro ⟨hall, hout⟩
    constructor
    · rw [← hlen]
      exact (filter_length_eq_iff_all (fun id => decide (0 < bets id))).mpr
        (fun i hi => by simpa using hall i hi)
    · rintro i _ ⟨hc, hb⟩
      exact hout i (by simpa using hc) (by simpa using hb)

/-- Claim C1: for every bets state, multiplier table, jackpot bonus and
winning 4-item group, `computeJackpotWin` satisfies the JACKPOT payout
specification: `matchedItems` are exactly the winning-group items with
nonzero stake, `baseWin` is the stake-times-multiplier sum over them,
`isExact4` holds exactly when all four group items and no outside item
carry a stake, the bonus is the full `jackpotBonus` for an exact four and
`round(jackpotBonus × matchedCount / 4)` otherwise, the payout is
`baseWin + bonus` when anything matched and `0` otherwise; equal stakes
on exactly the four winning items yield the full bonus and stakes on only
two of them yield `round(jackpotBonus × 2/4)`. -/
theorem computeJackpotWin_spec (bets itemMultiplier : ItemId → ℤ)
    (jackpotBonus : ℤ) (g : List ItemId)
    (hg : g = vegItems ∨ g = drinkItems) :
    (∀ i, i ∈ (computeJackpotWin g bets itemMultiplier jackpotBonus).matchedItems
        ↔ i ∈ g ∧ 0 < bets i)
    ∧ (computeJackpotWin g bets itemMultiplier jackpotBonus).matchedCount
        = (g.filter (fun id => decide (0 < bets id))).length
    ∧ (computeJackpotWin g bets itemMultiplier jackpotBonus).baseWin
        = (((computeJackpotWin g bets itemMultiplier jackpotBonus).matchedItems).map
            (fun id => bets id * itemMultiplier id)).sum
    ∧ ((computeJackpotWin g bets itemMultiplier jackpotBonus).isExact4 = true
        ↔ ((∀ i ∈ g, 0 < bets i) ∧ ∀ i, i ∉ g → ¬ 0 < bets i))
    ∧ (computeJackpotWin g bets itemMultiplier jackpotBonus).bonus
        = (if (computeJackpotWin g bets itemMultiplier jackpotBonus).isExact4
           then jackpotBonus
           else jsRound ((jackpotBonus : ℚ)
             * (((computeJackpotWin g bets itemMultiplier jackpotBonus).matchedCount : ℚ) / 4)))
    ∧ (computeJackpotWin g bets itemMultiplier jackpotBonus).totalWin
        = (if 0 < (computeJackpotWin g bets itemMultiplier jackpotBonus).matchedCount
           then (computeJackpotWin g bets itemMultiplier jackpotBonus).baseWin
             + (computeJackpotWin g bets itemMultiplier jackpotBonus).bonus
           else 0)
    ∧ (∀ c : ℤ, 0 < c → (∀ i ∈ g, bets i = c) → (∀ i, i ∉ g → bets i = 0) →
        (computeJackpotWin g bets itemMultiplier jackpotBonus).isExact4 = true
        ∧ (computeJackpotWin g bets itemMultiplier jackpotBonus).bonus = jackpotBonus)
    ∧ ((computeJackpotWin g bets itemMultiplier jackpotBonus).matchedCount = 2 →
        (computeJackpotWin g bets itemMultiplier jackpotBonus).isExact4 = false
        ∧ (computeJackpotWin g bets itemMultiplier jackpotBonus).bonus
            = jsRound ((jackpotBonus : ℚ) * ((2 : ℚ) / 4))) := by
  have hlen : g.length = 4 := by rcases hg with rfl | rfl <;> decide
  have hexact := computeJackpotWin_isExact4_iff g hlen bets itemMultiplier jackpotBonus
  have hbonus : (computeJackpotWin g bets itemMultiplier jackpotBonus).bonus
      = (if (computeJackpotWin g bets itemMultiplier jackpotBonus).isExact4
         then jackpotBonus
         else jsRound ((jackpotBonus : ℚ)
           * (((computeJackpotWin g bets itemMultiplier jackpotBonus).matchedCount : ℚ) / 4))) := rfl
  have hall4 : (computeJackpotWin g bets itemMultiplier jackpotBonus).isExact4
      = (((computeJackpotWin g bets itemMultiplier jackpotBonus).matchedCount == 4)
        && !(allItems.any (fun id => !(g.contains id) && decide (0 < bets id)))) := rfl
  refine ⟨?_, rfl, rfl, hexact, hbonus, rfl, ?_, ?_⟩
  · intro i
    simp [computeJackpotWin, List.mem_filter]
  · intro c hc hin hout
    have h : (computeJackpotWin g bets itemMultiplier jackpotBonus).isExact4 = true := by
      refine hexact.mpr ⟨fun i hi => ?_, fun i hig => ?_⟩
      · rw [hin i hi]; exact hc
      · rw [hout i hig]; exact lt_irrefl 0
    exact ⟨h, by rw [hbonus, h, if_pos rfl]⟩
  · intro h2
    have h : (computeJackpotWin g bets itemMultiplier jackpotBonus).isExact4 = false := by
      rw [hall4, h2]
      rfl
    refine ⟨h, ?_⟩
    rw [hbonus, h, h2]
    simp

theorem computeJackpotWin_spec_witness :
    (computeJackpotWin vegItems
        (fun i => if i = ItemId.tomato then 50 else if i = ItemId.lemon then 50 else 0)
        (fun _ => 5) 500000).isExact4 = false
    ∧ (computeJackpotWin vegItems
        (fun i => if i = ItemId.tomato then 50 else if i = ItemId.lemon then 50 else 0)
        (fun _ => 5) 500000).bonus
        = jsRound ((500000 : ℚ) * ((2 : ℚ) / 4)) :=
  (computeJackpotWin_spec
    (fun i => if i = ItemId.tomato then 50 else if i = ItemId.lemon then 50 else 0)
    (fun _ => 5) 500000 vegItems (Or.inl rfl)).2.2.2.2.2.2.2 (by decide)

/-- The `ResultKind` union of the source. -/
inductive ResultKind
  | WIN
  | LOSE
  | NOBET
  deriving DecidableEq, Repr

/-- NORMAL-round payout of the DRAWING settlement effect (GamePage.tsx
lines 1964–1969): `betOnWinner > 0 ? betOnWinner * itemMultiplier[winner] : 0`. -/
def normalWinAmount (bets itemMultiplier : ItemId → ℤ) (winner : ItemId) : ℤ :=
  if 0 < bets winner then bets winner * itemMultiplier winner else 0

/-- Result classification of the DRAWING settlement effect (GamePage.tsx
line 1973): `!hadAnyBet ? 'NOBET' : winAmount > 0 ? 'WIN' : 'LOSE'`,
where `hadAnyBet` is `totalBet > 0`. -/
def settlementResultKind (hadAnyBet : Bool) (winAmount : ℤ) : ResultKind :=
  if !hadAnyBet then ResultKind.NOBET
  else if 0 < winAmount then ResultKind.WIN
  else ResultKind.LOSE

lemma single_le_totalBet (bets : ItemId → ℤ) (h : ∀ i, 0 ≤ bets i) (i : ItemId) :
    bets i ≤ totalBet bets := by
  have h1 := h ItemId.honey
  have h2 := h ItemId.tomato
  have h3 := h ItemId.lemon
  have h4 := h ItemId.milk
  have h5 := h ItemId.pumpkin
  have h6 := h ItemId.zucchini
  have h7 := h ItemId.cola
  have h8 := h ItemId.water
  cases i <;> simp [totalBet, allItems] <;> linarith

lemma totalBet_nonneg (bets : ItemId → ℤ) (h : ∀ i, 0 ≤ bets i) :
    0 ≤ totalBet bets := by
  have h1 := h ItemId.honey
  have h2 := h ItemId.tomato
  have h3 := h ItemId.lemon
  have h4 := h ItemId.milk
  have h5 := h ItemId.pumpkin
  have h6 := h ItemId.zucchini
  have h7 := h ItemId.cola
  have h8 := h ItemId.water
  simp [totalBet, allItems]
  linarith

/-- Claim C2: in a NORMAL-round settlement with winning item `winner`,
the payout is `Bet[winner] × multiplier[winner]` when `Bet[winner] > 0`
and `0` otherwise, and (for nonnegative stakes) the classification the
code computes — NOBET checked first — agrees with the claim's order:
WIN if the payout is positive, NOBET if the round's total stake is zero,
LOSE otherwise. -/
theorem normal_settlement_spec (bets itemMultiplier : ItemId → ℤ)
    (winner : ItemId) (h : ∀ i, 0 ≤ bets i) :
    normalWinAmount bets itemMultiplier winner
      = (if 0 < bets winner then bets winner * itemMultiplier winner else 0)
    ∧ settlementResultKind (decide (0 < totalBet bets))
        (normalWinAmount bets itemMultiplier winner)
      = (if 0 < normalWinAmount bets itemMultiplier winner then ResultKind.WIN
         else if totalBet bets = 0 then ResultKind.NOBET
         else ResultKind.LOSE) := by
  refine ⟨rfl, ?_⟩
  by_cases hw : 0 < normalWinAmount bets itemMultiplier winner
  · have hbw : 0 < bets winner := by
      by_contra hb
      simp [normalWinAmount, hb] at hw
    have htot : 0 < totalBet bets := lt_of_lt_of_le hbw (single_le_totalBet bets h winner)
    simp [settlementResultKind, htot, hw]
  · by_cases ht : totalBet bets = 0
    · have hbw : bets winner = 0 :=
        le_antisymm (ht ▸ single_le_totalBet bets h winner) (h winner)
      simp [settlementResultKind, ht, hw]
    · have htot : 0 < totalBet bets :=
        lt_of_le_of_ne (totalBet_nonneg bets h) (Ne.symm ht)
      simp [settlementResultKind, htot, hw, ht]

theorem normal_settlement_spec_witness :
    normalWinAmount (fun _ => 100) (fun _ => 5) ItemId.honey
      = (if 0 < (100 : ℤ) then (100 : ℤ) * 5 else 0)
    ∧ settlementResultKind (decide (0 < totalBet (fun _ => 100)))
        (normalWinAmount (fun _ => 100) (fun _ => 5) ItemId.honey)
      = (if 0 < normalWinAmount (fun _ => 100) (fun _ => 5) ItemId.honey then ResultKind.WIN
         else if totalBet (fun _ => 100) = 0 then ResultKind.NOBET
         else ResultKind.LOSE) :=
  normal_settlement_spec (fun _ => 100) (fun _ => 5) ItemId.honey (by decide)

/-- The `Phase` union of the source. -/
inductive Phase
  | BETTING
  | DRAWING
  | SHOWTIME
  deriving DecidableEq, Repr

/-- The `ModalType` union of the source. -/
inductive ModalType
  | NONE
  | RULE
  | RECORDS
  | PRIZE
  | RANK
  | ADVANCED
  deriving DecidableEq, Repr

/-- The `useState` cells of `GamePage` that the bet ledger reads and
writes, gathered into one state record: phase, the overlay flags that
feed `hasBlockingOverlay`, the account fields, the per-item stakes of
the current round, the selected chip and the max-simultaneous-stakes
limit (`maxPlayers`). -/
structure GameState where
  phase : Phase
  activeModal : ModalType
  showGameOn : Bool
  showPreDraw : Bool
  showResultBoard : Bool
  chestPopup : Option (ℕ × ℤ)
  balance : ℤ
  lifetimeBet : ℤ
  todayWin : ℤ
  bets : ItemId → ℤ
  selectedChip : ℤ
  maxPlayers : ℕ

/-- `hasBlockingOverlay` of the source (GamePage.tsx lines 1814–1815):
`activeModal !== 'NONE' || showGameOn || showPreDraw || showResultBoard
|| chestPopup !== null`. -/
def hasBlockingOverlay (s : GameState) : Bool :=
  !(s.activeModal = ModalType.NONE) || s.showGameOn || s.showPreDraw
    || s.showResultBoard || s.chestPopup.isSome

/-- `canBet` of the source (GamePage.tsx line 1816). -/
def canBet (s : GameState) : Bool :=
  (s.phase = Phase.BETTING) && !hasBlockingOverlay s

/-- Count of items with a nonzero stake, as the source computes it:
`(Object.values(bets) as number[]).filter(v => v > 0).length`. -/
def bettedItemCount (bets : ItemId → ℤ) : ℕ :=
  ((allItems.map bets).filter (fun v => decide (0 < v))).length

/-- `placeBet` of the source (GamePage.tsx lines 2072–2088), restricted
to its game-state mutations (the fire-and-forget API call and the
cosmetic chip animation touch no engine state). -/
def placeBet (s : GameState) (itemId : ItemId) : GameState :=
  if !canBet s then s
  else if s.balance < s.selectedChip then s
  else if s.bets itemId = 0 ∧ s.maxPlayers ≤ bettedItemCount s.bets then s
  else
    { s with
      balance := s.balance - s.selectedChip
      lifetimeBet := s.lifetimeBet + s.selectedChip
      bets := fun i => if i = itemId then s.bets itemId + s.selectedChip else s.bets i }

/-- First-occurrence deduplication, the behaviour of
`Array.from(new Set(group))` in the source. -/
def dedupFirst : List ItemId → List ItemId
  | [] => []
  | x :: xs => x :: (dedupFirst xs).filter (fun y => y ≠ x)

/-- The bets update of `placeGroupBet`: `for (const id of ids)
next[id] = (next[id] ?? 0) + selectedChip`. -/
def addStakes (bets : ItemId → ℤ) (ids : List ItemId) (c : ℤ) : ItemId → ℤ :=
  ids.foldl (fun b id => fun i => if i = id then b id + c else b i) bets

/-- `placeGroupBet` of the source (GamePage.tsx lines 1727–1749),
restricted to its game-state mutations. -/
def placeGroupBet (s : GameState) (group : List ItemId) : GameState :=
  if !canBet s then s
  else
    let currentBettedCount := bettedItemCount s.bets
    let newItems := group.filter (fun id => s.bets id = 0)
    if s.maxPlayers < currentBettedCount + newItems.length then s
    else
      let ids := dedupFirst group
      let totalCost := s.selectedChip * (ids.length : ℤ)
      if s.balance < totalCost then s
      else
        { s with
          balance := s.balance - totalCost
          lifetimeBet := s.lifetimeBet + totalCost
          bets := addStakes s.bets ids s.selectedChip }

/-- Claim C4: `placeBet` is a no-op whenever the phase is not BETTING or
a blocking overlay is active (`canBet` false), or the chip amount
exceeds the balance, or the item has zero stake while the count of
staked items has reached the `maxPlayers` limit; otherwise it debits the
balance by the chip amount, credits `lifetimeBet`, and increments only
the chosen item's stake. -/
theorem placeBet_spec (s : GameState) (i : ItemId) :
    ((canBet s = false ∨ s.balance < s.selectedChip
        ∨ (s.bets i = 0 ∧ s.maxPlayers ≤ bettedItemCount s.bets)) →
      placeBet s i = s)
    ∧ (canBet s = true → s.selectedChip ≤ s.balance →
        ¬(s.bets i = 0 ∧ s.maxPlayers ≤ bettedItemCount s.bets) →
        (placeBet s i).balance = s.balance - s.selectedChip
        ∧ (placeBet s i).lifetimeBet = s.lifetimeBet + s.selectedChip
        ∧ (placeBet s i).bets i = s.bets i + s.selectedChip
        ∧ (∀ j, j ≠ i → (placeBet s i).bets j = s.bets j)) := by
  constructor
  · intro h
    unfold placeBet
    rcases h with h | h | h
    · simp [h]
    · by_cases hc : canBet s
      · simp [hc, h]
      · simp [hc]
    · by_cases hc : canBet s
      · by_cases hb : s.balance < s.selectedChip
        · simp [hc, hb]
        · simp [hc, hb, h]
      · simp [hc]
  · intro hc hb hm
    have hb' : ¬ s.balance < s.selectedChip := not_lt.mpr hb
    have hstep : placeBet s i =
        { s with
          balance := s.balance - s.selectedChip
          lifetimeBet := s.lifetimeBet + s.selectedChip
          bets := fun j => if j = i then s.bets i + s.selectedChip else s.bets j } := by
      unfold placeBet
      simp [hc, hb', hm]
    refine ⟨by rw [hstep], by rw [hstep], by rw [hstep]; simp,
      fun j hj => by rw [hstep]; simp [hj]⟩

theorem placeBet_spec_witness :
    (placeBet
      { phase := Phase.BETTING, activeModal := ModalType.NONE,
        showGameOn := false, showPreDraw := false, showResultBoard := false,
        chestPopup := none, balance := 129454, lifetimeBet := 21380,
        todayWin := 0, bets := fun _ => 0, selectedChip := 100, maxPlayers := 8 }
      ItemId.honey).balance = 129454 - 100
    ∧ (placeBet
      { phase := Phase.BETTING, activeModal := ModalType.NONE,
        showGameOn := false, showPreDraw := false, showResultBoard := false,
        chestPopup := none, balance := 129454, lifetimeBet := 21380,
        todayWin := 0, bets := fun _ => 0, selectedChip := 100, maxPlayers := 8 }
      ItemId.honey).lifetimeBet = 21380 + 100
    ∧ (placeBet
      { phase := Phase.BETTING, activeModal := ModalType.NONE,
        showGameOn := false, showPreDraw := false, showResultBoard := false,
        chestPopup := none, balance := 129454, lifetimeBet := 21380,
        todayWin := 0, bets := fun _ => 0, selectedChip := 100, maxPlayers := 8 }
      ItemId.honey).bets ItemId.honey = 0 + 100
    ∧ (∀ j, j ≠ ItemId.honey →
        (placeBet
          { phase := Phase.BETTING, activeModal := ModalType.NONE,
            showGameOn := false, showPreDraw := false, showResultBoard := false,
            chestPopup := none, balance := 129454, lifetimeBet := 21380,
            todayWin := 0, bets := fun _ => 0, selectedChip := 100, maxPlayers := 8 }
          ItemId.honey).bets j = 0) :=
  (placeBet_spec _ ItemId.honey).2 (by decide) (by decide) (by decide)

/-- Claim C5: `placeGroupBet` on one of the two fixed 4-item groups is
atomic: it succeeds only with `canBet`, balance at least `chip × 4` and
the staked-item count kept within the limit, in which case all four
items' stakes rise by the chip amount, the balance drops by `chip × 4`
and `lifetimeBet` rises by `chip × 4`; on any rejection the whole state
is unchanged. -/
theorem placeGroupBet_spec (s : GameState) (group : List ItemId)
    (hg : group = vegItems ∨ group = drinkItems) :
    ((canBet s = false
        ∨ s.maxPlayers < bettedItemCount s.bets
            + (group.filter (fun id => s.bets id = 0)).length
        ∨ s.balance < s.selectedChip * 4) →
      placeGroupBet s group = s)
    ∧ (canBet s = true →
        bettedItemCount s.bets + (group.filter (fun id => s.bets id = 0)).length
          ≤ s.maxPlayers →
        s.selectedChip * 4 ≤ s.balance →
        (∀ i ∈ group, (placeGroupBet s group).bets i = s.bets i + s.selectedChip)
        ∧ (∀ i, i ∉ group → (placeGroupBet s group).bets i = s.bets i)
        ∧ (placeGroupBet s group).balance = s.balance - s.selectedChip * 4
        ∧ (placeGroupBet s group).lifetimeBet = s.lifetimeBet + s.selectedChip * 4) := by
  have hd : dedupFirst group = group := by
    rcases hg with rfl | rfl <;> decide
  have hlen : ((dedupFirst group).length : ℤ) = 4 := by
    rcases hg with rfl | rfl <;> decide
  constructor
  · intro h
    unfold placeGroupBet
    rcases h with h | h | h
    · simp [h]
    · by_cases hc : canBet s
      · simp [hc, h]
      · simp [hc]
    · by_cases hc : canBet s
      · by_cases hmax : s.maxPlayers < bettedItemCount s.bets
            + (group.filter (fun id => s.bets id = 0)).length
        · simp [hc, hmax]
        · have h' : s.balance < s.selectedChip * ((dedupFirst group).length : ℤ) := by
            rw [hlen]; exact h
          simp [hc, hmax, h']
      · simp [hc]
  · intro hc hmax hbal
    have hmax' : ¬ s.maxPlayers < bettedItemCount s.bets
        + (group.filter (fun id => s.bets id = 0)).length := not_lt.mpr hmax
    have hbal' : ¬ s.balance < s.selectedChip * ((dedupFirst group).length : ℤ) := by
      rw [hlen]; exact not_lt.mpr hbal
    have hstep : placeGroupBet s group =
        { s with
          balance := s.balance - s.selectedChip * ((dedupFirst group).length : ℤ)
          lifetimeBet := s.lifetimeBet + s.selectedChip * ((dedupFirst group).length : ℤ)
          bets := addStakes s.bets (dedupFirst group) s.selectedChip } := by
      unfold placeGroupBet
      simp [hc, hmax', hbal']
    refine ⟨?_, ?_, by rw [hstep, hlen], by rw [hstep, hlen]⟩
    · intro i hi
      rw [hstep, hd]
      rcases hg with rfl | rfl <;>
        simp only [vegItems, drinkItems, List.mem_cons, List.not_mem_nil, or_false] at hi <;>
        rcases hi with rfl | rfl | rfl | rfl <;>
        simp [addStakes, vegItems, drinkItems]
    · intro i hi
      rw [hstep, hd]
      rcases hg with rfl | rfl <;>
        simp only [vegItems, drinkItems, List.mem_cons, List.not_mem_nil, or_false,
          not_or] at hi <;>
        obtain ⟨h1, h2, h3, h4⟩ := hi <;>
        simp [addStakes, vegItems, drinkItems, h1, h2, h3, h4]

/-- The ledger state at the moment a betting phase opens, with the
initial values of the source's `useState` cells (`balance` 129454,
`lifetimeBet` 21380, `selectedChip` 100, `maxPlayers` 8, empty bets) and
all blocking overlays cleared. -/
def initialGameState : GameState :=
  { phase := Phase.BETTING, activeModal := ModalType.NONE,
    showGameOn := false, showPreDraw := false, showResultBoard := false,
    chestPopup := none, balance := 129454, lifetimeBet := 21380,
    todayWin := 0, bets := fun _ => 0, selectedChip := 100, maxPlayers := 8 }

theorem placeGroupBet_spec_witness :
    (∀ i ∈ vegItems, (placeGroupBet initialGameState vegItems).bets i
        = initialGameState.bets i + initialGameState.selectedChip)
    ∧ (∀ i, i ∉ vegItems →
        (placeGroupBet initialGameState vegItems).bets i = initialGameState.bets i)
    ∧ (placeGroupBet initialGameState vegItems).balance
        = initialGameState.balance - initialGameState.selectedChip * 4
    ∧ (placeGroupBet initialGameState vegItems).lifetimeBet
        = initialGameState.lifetimeBet + initialGameState.selectedChip * 4 :=
  (placeGroupBet_spec initialGameState vegItems (Or.inl rfl)).2
    (by decide) (by decide) (by decide)

/-- The chip-selection handler: `setSelectedChip(value)`. -/
def setSelectedChip (s : GameState) (c : ℤ) : GameState :=
  { s with selectedChip := c }

/-- `DEFAULT_CHIP_VALUES` of the source. -/
def DEFAULT_CHIP_VALUES : List ℤ := [10, 100, 500, 1000, 5000]

/-- The SHOWTIME settlement mutations of the source (GamePage.tsx lines
2008–2046): a positive payout is credited to `balance` and `todayWin`,
and the bets are reset to `buildEmptyBets()`. -/
def applySettlement (s : GameState) (winAmount : ℤ) : GameState :=
  { s with
    balance := if 0 < winAmount then s.balance + winAmount else s.balance
    todayWin := if 0 < winAmount then s.todayWin + winAmount else s.todayWin
    bets := fun _ => 0 }

/-- One user-or-engine operation on the ledger state: a single stake, a
group stake on one of the two fixed buckets, selecting a chip from the
chip row, or a round settlement with a nonnegative payout. -/
inductive LedgerStep : GameState → GameState → Prop
  | stake (s : GameState) (i : ItemId) : LedgerStep s (placeBet s i)
  | groupStake (s : GameState) (g : List ItemId)
      (hg : g = vegItems ∨ g = drinkItems) : LedgerStep s (placeGroupBet s g)
  | chip (s : GameState) (c : ℤ) (hc : c ∈ DEFAULT_CHIP_VALUES) :
      LedgerStep s (setSelectedChip s c)
  | settle (s : GameState) (w : ℤ) (hw : 0 ≤ w) :
      LedgerStep s (applySettlement s w)

/-- Steps available while a round is in progress (no settlement). -/
inductive BetPhaseStep : GameState → GameState → Prop
  | stake (s : GameState) (i : ItemId) : BetPhaseStep s (placeBet s i)
  | groupStake (s : GameState) (g : List ItemId)
      (hg : g = vegItems ∨ g = drinkItems) : BetPhaseStep s (placeGroupBet s g)
  | chip (s : GameState) (c : ℤ) (hc : c ∈ DEFAULT_CHIP_VALUES) :
      BetPhaseStep s (setSelectedChip s c)

def LedgerReachable : GameState → GameState → Prop :=
  Relation.ReflTransGen LedgerStep

def BetPhaseReachable : GameState → GameState → Prop :=
  Relation.ReflTransGen BetPhaseStep

lemma totalBet_update (bets : ItemId → ℤ) (i : ItemId) (c : ℤ) :
    totalBet (fun j => if j = i then bets i + c else bets j) = totalBet bets + c := by
  cases i <;> simp [totalBet, allItems] <;> ring

lemma placeBet_conservation (s : GameState) (i : ItemId) :
    (placeBet s i).balance + totalBet (placeBet s i).bets
      = s.balance + totalBet s.bets := by
  unfold placeBet
  by_cases hc : canBet s
  · by_cases hb : s.balance < s.selectedChip
    · simp [hc, hb]
    · by_cases hm : s.bets i = 0 ∧ s.maxPlayers ≤ bettedItemCount s.bets
      · simp [hc, hb, hm]
      · simp only [hc, hb, hm, Bool.not_true, Bool.false_eq_true, if_false, if_neg hm]
        rw [totalBet_update]
        ring
  · simp [hc]

lemma totalBet_addStakes_group (bets : ItemId → ℤ) (c : ℤ) (g : List ItemId)
    (hg : g = vegItems ∨ g = drinkItems) :
    totalBet (addStakes bets g c) = totalBet bets + 4 * c := by
  rcases hg with rfl | rfl <;>
    simp [totalBet, addStakes, allItems, vegItems, drinkItems] <;> ring

lemma placeGroupBet_conservation (s : GameState) (g : List ItemId)
    (hg : g = vegItems ∨ g = drinkItems) :
    (placeGroupBet s g).balance + totalBet (placeGroupBet s g).bets
      = s.balance + totalBet s.bets := by
  have hd : dedupFirst g = g := by rcases hg with rfl | rfl <;> decide
  have hlen : ((dedupFirst g).length : ℤ) = 4 := by rcases hg with rfl | rfl <;> decide
  unfold placeGroupBet
  by_cases hc : canBet s
  · by_cases hmax : s.maxPlayers < bettedItemCount s.bets
        + (g.filter (fun id => s.bets id = 0)).length
    · simp [hc, hmax]
    · by_cases hbal : s.balance < s.selectedChip * ((dedupFirst g).length : ℤ)
      · simp [hc, hmax, hbal]
      · simp only [hc, hmax, hbal, Bool.not_true, Bool.false_eq_true, if_false]
        have hlen' : ((g.length : ℕ) : ℤ) = 4 := by rcases hg with rfl | rfl <;> decide
        rw [hd, totalBet_addStakes_group s.bets s.selectedChip g hg, hlen']
        ring
  · simp [hc]

lemma placeBet_balance_nonneg (s : GameState) (i : ItemId) (h0 : 0 ≤ s.balance) :
    0 ≤ (placeBet s i).balance := by
  unfold placeBet
  by_cases hc : canBet s
  · by_cases hb : s.balance < s.selectedChip
    · simp [hc, hb, h0]
    · by_cases hm : s.bets i = 0 ∧ s.maxPlayers ≤ bettedItemCount s.bets
      · simp [hc, hb, hm, h0]
      · simp only [hc, hb, hm, Bool.not_true, Bool.false_eq_true, if_false, if_neg hm]
        exact sub_nonneg.mpr (not_lt.mp hb)
  · simp [hc, h0]

lemma placeGroupBet_balance_nonneg (s : GameState) (g : List ItemId)
    (h0 : 0 ≤ s.balance) : 0 ≤ (placeGroupBet s g).balance := by
  unfold placeGroupBet
  by_cases hc : canBet s
  · by_cases hmax : s.maxPlayers < bettedItemCount s.bets
        + (g.filter (fun id => s.bets id = 0)).length
    · simp [hc, hmax, h0]
    · by_cases hbal : s.balance < s.selectedChip * ((dedupFirst g).length : ℤ)
      · simp [hc, hmax, hbal, h0]
      · simp only [hc, hmax, hbal, Bool.not_true, Bool.false_eq_true, if_false]
        exact sub_nonneg.mpr (not_lt.mp hbal)
  · simp [hc, h0]

lemma ledgerStep_balance_nonneg {s s' : GameState} (h : LedgerStep s s')
    (h0 : 0 ≤ s.balance) : 0 ≤ s'.balance := by
  cases h with
  | stake i => exact placeBet_balance_nonneg s i h0
  | groupStake g hg => exact placeGroupBet_balance_nonneg s g h0
  | chip c hc => exact h0
  | settle w hw =>
      unfold applySettlement
      by_cases hw' : 0 < w
      · simpa [hw'] using add_nonneg h0 hw
      · simpa [hw'] using h0

lemma betPhaseStep_balance_nonneg {s s' : GameState} (h : BetPhaseStep s s')
    (h0 : 0 ≤ s.balance) : 0 ≤ s'.balance := by
  cases h with
  | stake i => exact placeBet_balance_nonneg s i h0
  | groupStake g hg => exact placeGroupBet_balance_nonneg s g h0
  | chip c hc => exact h0

lemma betPhaseStep_conservation {s s' : GameState} (h : BetPhaseStep s s') :
    s'.balance + totalBet s'.bets = s.balance + totalBet s.bets := by
  cases h with
  | stake i => exact placeBet_conservation s i
  | groupStake g hg => exact placeGroupBet_conservation s g hg
  | chip c hc => rfl

/-- Claim C3 (amended): the claimed invariant `sum(Bet) ≤ balance` fails
(see the counterexample); what the ledger does guarantee is that the
balance never goes negative under any reachable sequence of operations
(settlement included), that `placeBet` and `placeGroupBet` conserve
`balance + sum(Bet)` exactly — stakes are debited immediately — and
hence that during a betting phase the total stake never exceeds the
balance held at the start of the phase plus the stakes already placed. -/
theorem ledger_invariant_spec :
    (∀ s s', LedgerReachable s s' → 0 ≤ s.balance → 0 ≤ s'.balance)
    ∧ (∀ s i, (placeBet s i).balance + totalBet (placeBet s i).bets
        = s.balance + totalBet s.bets)
    ∧ (∀ s g, g = vegItems ∨ g = drinkItems →
        (placeGroupBet s g).balance + totalBet (placeGroupBet s g).bets
          = s.balance + totalBet s.bets)
    ∧ (∀ s s', BetPhaseReachable s s' →
        s'.balance + totalBet s'.bets = s.balance + totalBet s.bets)
    ∧ (∀ s s', BetPhaseReachable s s' → 0 ≤ s.balance →
        totalBet s'.bets ≤ s.balance + totalBet s.bets) := by
  have hreach : ∀ s s', LedgerReachable s s' → 0 ≤ s.balance → 0 ≤ s'.balance := by
    intro s s' h h0
    induction h with
    | refl => exact h0
    | tail _ hbc ih => exact ledgerStep_balance_nonneg hbc ih
  have hcons : ∀ s s', BetPhaseReachable s s' →
      s'.balance + totalBet s'.bets = s.balance + totalBet s.bets := by
    intro s s' h
    induction h with
    | refl => rfl
    | tail _ hbc ih => rw [betPhaseStep_conservation hbc, ih]
  have hnn : ∀ s s', BetPhaseReachable s s' → 0 ≤ s.balance → 0 ≤ s'.balance := by
    intro s s' h h0
    induction h with
    | refl => exact h0
    | tail _ hbc ih => exact betPhaseStep_balance_nonneg hbc ih
  refine ⟨hreach, placeBet_conservation, ?_, hcons, ?_⟩
  · intro s g hg
    exact placeGroupBet_conservation s g hg
  · intro s s' h h0
    have := hcons s s' h
    have h0' := hnn s s' h h0
    linarith

theorem ledger_invariant_spec_witness :
    totalBet (placeGroupBet initialGameState vegItems).bets
      ≤ initialGameState.balance + totalBet initialGameState.bets :=
  ledger_invariant_spec.2.2.2.2 initialGameState (placeGroupBet initialGameState vegItems)
    (Relation.ReflTransGen.single
      (BetPhaseStep.groupStake initialGameState vegItems (Or.inl rfl)))
    (by decide)

/-- Claim C3, counterexample: from the initial state, selecting the 5000
chip and placing four vegetable group bets is a reachable sequence of
accepted operations after which the round's total stake (80000) exceeds
the remaining balance (49454), refuting `sum(Bet) ≤ balance`. -/
theorem sum_bets_le_balance_counterexample :
    LedgerReachable initialGameState
      (placeGroupBet (placeGroupBet (placeGroupBet (placeGroupBet
        (setSelectedChip initialGameState 5000) vegItems) vegItems) vegItems) vegItems)
    ∧ totalBet initialGameState.bets ≤ initialGameState.balance
    ∧ ¬ (totalBet (placeGroupBet (placeGroupBet (placeGroupBet (placeGroupBet
          (setSelectedChip initialGameState 5000) vegItems) vegItems) vegItems) vegItems).bets
        ≤ (placeGroupBet (placeGroupBet (placeGroupBet (placeGroupBet
          (setSelectedChip initialGameState 5000) vegItems) vegItems) vegItems) vegItems).balance) := by
  refine ⟨?_, by decide, by decide⟩
  exact Relation.ReflTransGen.tail
    (Relation.ReflTransGen.tail
      (Relation.ReflTransGen.tail
        (Relation.ReflTransGen.tail
          (Relation.ReflTransGen.single
            (LedgerStep.chip initialGameState 5000 (by decide)))
          (LedgerStep.groupStake _ vegItems (Or.inl rfl)))
        (LedgerStep.groupStake _ vegItems (Or.inl rfl)))
      (LedgerStep.groupStake _ vegItems (Or.inl rfl)))
    (LedgerStep.groupStake _ vegItems (Or.inl rfl))

/-- Claim C10: when every item's stake is zero, the payout is 0 for both
round types — `Bet[winner] = 0` forces a NORMAL payout of 0 and
`matchedCount = 0` forces a JACKPOT payout of 0 — the round is
classified NOBET, and with a zero total stake no payout value whatsoever
can make the classification WIN. -/
theorem zero_stake_settlement_spec (bets itemMultiplier : ItemId → ℤ)
    (jackpotBonus : ℤ) (g : List ItemId) (winner : ItemId)
    (h : ∀ i, bets i = 0) :
    normalWinAmount bets itemMultiplier winner = 0
    ∧ (computeJackpotWin g bets itemMultiplier jackpotBonus).matchedCount = 0
    ∧ (computeJackpotWin g bets itemMultiplier jackpotBonus).totalWin = 0
    ∧ totalBet bets = 0
    ∧ settlementResultKind (decide (0 < totalBet bets))
        (normalWinAmount bets itemMultiplier winner) = ResultKind.NOBET
    ∧ settlementResultKind (decide (0 < totalBet bets))
        ((computeJackpotWin g bets itemMultiplier jackpotBonus).totalWin)
      = ResultKind.NOBET
    ∧ (∀ w : ℤ, settlementResultKind (decide (0 < totalBet bets)) w ≠ ResultKind.WIN) := by
  have htot : totalBet bets = 0 := by
    simp [totalBet, allItems, h]
  have hnorm : normalWinAmount bets itemMultiplier winner = 0 := by
    simp [normalWinAmount, h winner]
  have hmc : (computeJackpotWin g bets itemMultiplier jackpotBonus).matchedCount = 0 := by
    simp only [computeJackpotWin]
    rw [List.length_eq_zero, List.filter_eq_nil_iff]
    intro a _
    simp [h a]
  have hjack : (computeJackpotWin g bets itemMultiplier jackpotBonus).totalWin = 0 := by
    have : (computeJackpotWin g bets itemMultiplier jackpotBonus).totalWin
        = if 0 < (computeJackpotWin g bets itemMultiplier jackpotBonus).matchedCount
          then (computeJackpotWin g bets itemMultiplier jackpotBonus).baseWin
            + (computeJackpotWin g bets itemMultiplier jackpotBonus).bonus
          else 0 := rfl
    rw [this, hmc]
    simp
  have hnobet : ∀ w : ℤ, settlementResultKind (decide (0 < totalBet bets)) w
      = ResultKind.NOBET := by
    intro w
    simp [settlementResultKind, htot]
  exact ⟨hnorm, hmc, hjack, htot, hnobet _, hnobet _,
    fun w => by rw [hnobet w]; exact fun hcontra => ResultKind.noConfusion hcontra⟩

theorem zero_stake_settlement_spec_witness :
    normalWinAmount (fun _ => 0) (fun _ => 5) ItemId.honey = 0
    ∧ (computeJackpotWin vegItems (fun _ => 0) (fun _ => 5) 500000).matchedCount = 0
    ∧ (computeJackpotWin vegItems (fun _ => 0) (fun _ => 5) 500000).totalWin = 0
    ∧ totalBet (fun _ => 0) = 0
    ∧ settlementResultKind (decide (0 < totalBet (fun _ => 0)))
        (normalWinAmount (fun _ => 0) (fun _ => 5) ItemId.honey) = ResultKind.NOBET
    ∧ settlementResultKind (decide (0 < totalBet (fun _ => 0)))
        ((computeJackpotWin vegItems (fun _ => 0) (fun _ => 5) 500000).totalWin)
      = ResultKind.NOBET
    ∧ (∀ w : ℤ, settlementResultKind (decide (0 < totalBet (fun _ => 0))) w
        ≠ ResultKind.WIN) :=
  zero_stake_settlement_spec (fun _ => 0) (fun _ => 5) 500000 vegItems ItemId.honey
    (fun _ => rfl)

/-- The effective per-item weight of `weightedRandomPick` in the source:
`weights[item.id] || 1`. JS `||` replaces every falsy value, so a weight
of `0` is replaced by `1` just like a missing entry. -/
def effWeight (weights : ItemId → ℚ) (i : ItemId) : ℚ :=
  if weights i = 0 then 1 else weights i

/-- `totalWeight` of `weightedRandomPick` in the source:
`items.reduce((sum, item) => sum + (weights[item.id] || 1), 0)`. -/
def totalWeight (items : List ItemId) (weights : ItemId → ℚ) : ℚ :=
  (items.map (effWeight weights)).sum

/-- The subtraction loop of `weightedRandomPick`: `r -= weights[item.id]
|| 1; if (r <= 0) return item.id;`, with the early return embedded as an
`Option`. -/
def weightedLoop (weights : ItemId → ℚ) : List ItemId → ℚ → Option ItemId
  | [], _ => none
  | item :: rest, r =>
      if r - effWeight weights item ≤ 0 then some item
      else weightedLoop weights rest (r - effWeight weights item)

/-- `weightedRandomPick` of the source (GamePage.tsx lines 156–164); the
fallback `items[items.length - 1].id` is the last item of the list (the
function is only ever called on the nonempty `ITEMS` array). -/
def weightedRandomPick (items : List ItemId) (weights : ItemId → ℚ) (r : ℚ) : ItemId :=
  match weightedLoop weights items r with
  | some i => i
  | none => items.getLastD ItemId.water

/-- Running weight sum of the first `n` items under the code's effective
weights. -/
def weightUpTo (weights : ItemId → ℚ) (items : List ItemId) (n : ℕ) : ℚ :=
  ((items.take n).map (effWeight weights)).sum

lemma weightUpTo_cons (weights : ItemId → ℚ) (i : ItemId) (tl : List ItemId) (n : ℕ) :
    weightUpTo weights (i :: tl) (n + 1) = effWeight weights i + weightUpTo weights tl n := by
  simp [weightUpTo, List.take_succ_cons]

lemma weightedLoop_eq_none_iff (weights : ItemId → ℚ) (l : List ItemId) (r : ℚ) :
    weightedLoop weights l r = none ↔ ∀ j < l.length, weightUpTo weights l (j + 1) < r := by
  induction l generalizing r with
  | nil => simp [weightedLoop]
  | cons i tl ih =>
      by_cases h : r - effWeight weights i ≤ 0
      · simp only [weightedLoop, if_pos h]
        constructor
        · intro hcontra
          exact Option.noConfusion hcontra
        · intro hall
          have h1 := hall 0 (Nat.succ_pos _)
          rw [weightUpTo_cons] at h1
          simp [weightUpTo] at h1
          linarith [sub_nonpos.mp h]
      · simp only [weightedLoop, if_neg h]
        rw [ih (r - effWeight weights i)]
        constructor
        · intro hall j hj
          cases j with
          | zero =>
              rw [weightUpTo_cons]
              simp [weightUpTo]
              linarith [not_le.mp h]
          | succ j' =>
              have hj' : j' < tl.length := by simpa using hj
              have := hall j' hj'
              rw [weightUpTo_cons]
              linarith
        · intro hall j hj
          have := hall (j + 1) (by simpa using hj)
          rw [weightUpTo_cons] at this
          linarith

lemma weightedLoop_eq_some (weights : ItemId → ℚ) (l : List ItemId) (r : ℚ)
    (i : ItemId) (h : weightedLoop weights l r = some i) :
    ∃ k, ∃ hk : k < l.length, i = l.get ⟨k, hk⟩
      ∧ r ≤ weightUpTo weights l (k + 1)
      ∧ ∀ j < k, weightUpTo weights l (j + 1) < r := by
  induction l generalizing r with
  | nil => exact Option.noConfusion h
  | cons x tl ih =>
      by_cases hx : r - effWeight weights x ≤ 0
      · rw [weightedLoop, if_pos hx] at h
        refine ⟨0, Nat.succ_pos _, by simpa using (Option.some_inj.mp h).symm, ?_, ?_⟩
        · rw [weightUpTo_cons]
          simp [weightUpTo]
          linarith [sub_nonpos.mp hx]
        · intro j hj
          exact absurd hj (Nat.not_lt_zero j)
      · rw [weightedLoop, if_neg hx] at h
        obtain ⟨k, hk, hget, hle, hmin⟩ := ih (r - effWeight weights x) h
        refine ⟨k + 1, by simpa using hk, by simpa using hget, ?_, ?_⟩
        · rw [weightUpTo_cons]
          linarith
        · intro j hj
          cases j with
          | zero =>
              rw [weightUpTo_cons]
              simp [weightUpTo]
              linarith [not_le.mp hx]
          | succ j' =>
              have := hmin j' (by omega)
              rw [weightUpTo_cons]
              linarith

lemma weightUpTo_full (weights : ItemId → ℚ) :
    weightUpTo weights allItems allItems.length = totalWeight allItems weights := by
  simp [weightUpTo, totalWeight, List.take_length]

/-- Claim C6 (amended): for every weight record and draw value
`r ∈ [0, totalWeight)` — with the source's effective weights, where an
item weight that is unset **or zero** falls back to 1 via JS `|| 1` —
`weightedRandomPick` returns the first item, in the fixed `ITEMS`
iteration order, at which the running subtraction of effective weights
from `r` reaches a remainder ≤ 0, and the last item (`water`) whenever
no item's running sum reaches `r`. -/
theorem weightedRandomPick_spec (weights : ItemId → ℚ) (r : ℚ) :
    (0 ≤ r → r < totalWeight allItems weights →
      ∃ k, ∃ hk : k < allItems.length,
        weightedRandomPick allItems weights r = allItems.get ⟨k, hk⟩
        ∧ r ≤ weightUpTo weights allItems (k + 1)
        ∧ ∀ j < k, weightUpTo weights allItems (j + 1) < r)
    ∧ ((∀ j < allItems.length, weightUpTo weights allItems (j + 1) < r) →
        weightedRandomPick allItems weights r = ItemId.water) := by
  constructor
  · intro _ h1
    cases hcase : weightedLoop weights allItems r with
    | none =>
        exfalso
        have hall := (weightedLoop_eq_none_iff weights allItems r).mp hcase
        have h7 := hall 7 (by decide)
        have : weightUpTo weights allItems 8 = totalWeight allItems weights :=
          weightUpTo_full weights
        rw [show (7 : ℕ) + 1 = 8 from rfl, this] at h7
        linarith
    | some i =>
        obtain ⟨k, hk, hget, hle, hmin⟩ := weightedLoop_eq_some weights allItems r i hcase
        exact ⟨k, hk, by simp [weightedRandomPick, hcase, hget], hle, hmin⟩
  · intro hall
    have hnone : weightedLoop weights allItems r = none :=
      (weightedLoop_eq_none_iff weights allItems r).mpr hall
    simp [weightedRandomPick, hnone]
    rfl

lemma totalWeight_all_ones : totalWeight allItems (fun _ => 1) = 8 := by
  norm_num [totalWeight, allItems, effWeight]

theorem weightedRandomPick_spec_witness :
    ∃ k, ∃ hk : k < allItems.length,
      weightedRandomPick allItems (fun _ => 1) 0 = allItems.get ⟨k, hk⟩
      ∧ (0 : ℚ) ≤ weightUpTo (fun _ => 1) allItems (k + 1)
      ∧ ∀ j < k, weightUpTo (fun _ => 1) allItems (j + 1) < 0 :=
  (weightedRandomPick_spec (fun _ => 1) 0).1 (le_refl 0)
    (by rw [totalWeight_all_ones]; decide)

/-- Claim C6 as literally stated, modelled from the claim's words for
comparison against the source: the same first-hit subtraction loop but
over the raw `winWeight` values — a weight that is set is used as given,
only an unset weight would default to 1 (the weight record of the source
is total, so no defaulting occurs here), and `totalWeight` is the raw
sum. -/
def specRawLoop (weights : ItemId → ℚ) : List ItemId → ℚ → Option ItemId
  | [], _ => none
  | item :: rest, r =>
      if r - weights item ≤ 0 then some item
      else specRawLoop weights rest (r - weights item)

/-- The claim-as-stated pick (see `specRawLoop`). -/
def specRawPick (items : List ItemId) (weights : ItemId → ℚ) (r : ℚ) : ItemId :=
  match specRawLoop weights items r with
  | some i => i
  | none => items.getLastD ItemId.water

/-- The claim-as-stated total weight: raw sum of the (all set) weights. -/
def specRawTotalWeight (items : List ItemId) (weights : ItemId → ℚ) : ℚ :=
  (items.map weights).sum

/-- Claim C6, counterexample: with honey's weight set to `0` and every
other weight `1`, and `r = 6.5` (inside `[0, totalWeight)` under both
readings), the claim's subtraction over the raw weights lands on
`water`, but the source replaces the falsy `0` by `1` (`weights[id] ||
1`) and lands on `cola`. -/
theorem weightedRandomPick_counterexample :
    (0 : ℚ) ≤ 13 / 2
    ∧ (13 / 2 : ℚ)
        < specRawTotalWeight allItems
            (fun i => match i with | ItemId.honey => 0 | _ => 1)
    ∧ (13 / 2 : ℚ)
        < totalWeight allItems
            (fun i => match i with | ItemId.honey => 0 | _ => 1)
    ∧ specRawPick allItems
        (fun i => match i with | ItemId.honey => 0 | _ => 1) (13 / 2)
        = ItemId.water
    ∧ weightedRandomPick allItems
        (fun i => match i with | ItemId.honey => 0 | _ => 1) (13 / 2)
        = ItemId.cola
    ∧ ItemId.water ≠ ItemId.cola := by
  refine ⟨by norm_num, ?_, ?_, ?_, ?_, by decide⟩
  · norm_num [specRawTotalWeight, allItems]
  · norm_num [totalWeight, allItems, effWeight]
  · norm_num [specRawPick, specRawLoop, allItems]
  · norm_num [weightedRandomPick, weightedLoop, allItems, effWeight]

/-- The `RoundType` union of the source. -/
inductive RoundType
  | NORMAL
  | JACKPOT
  deriving DecidableEq, Repr

/-- `JACKPOT_EVERY_N_NORMAL_ROUNDS` of the source. -/
def JACKPOT_EVERY_N_NORMAL_ROUNDS : ℕ := 3

/-- The round-type decision of `beginRound` (GamePage.tsx lines
1698–1704): `normalRoundsSinceJackpotRef.current > 0 &&
normalRoundsSinceJackpotRef.current % JACKPOT_EVERY_N_NORMAL_ROUNDS
=== 0`. -/
def isJackpotNext (c : ℕ) : Bool :=
  decide (0 < c) && decide (c % JACKPOT_EVERY_N_NORMAL_ROUNDS = 0)

/-- `setRoundType(isJackpotNext ? 'JACKPOT' : 'NORMAL')` in `beginRound`. -/
def nextRoundType (c : ℕ) : RoundType :=
  if isJackpotNext c then RoundType.JACKPOT else RoundType.NORMAL

/-- The counter update of the SHOWTIME completion effect (GamePage.tsx
lines 2039–2044): reset to 0 after a JACKPOT round, incremented after a
NORMAL round. -/
def updateJackpotCounter (c : ℕ) : RoundType → ℕ
  | RoundType.JACKPOT => 0
  | RoundType.NORMAL => c + 1

/-- The counter value before round `k` when the engine runs from its
initial counter 0 (`useRef(0)`), with each round's type decided by
`nextRoundType` and the counter updated on completion. -/
def engineCounter : ℕ → ℕ
  | 0 => 0
  | k + 1 => updateJackpotCounter (engineCounter k) (nextRoundType (engineCounter k))

lemma engineCounter_mod (k : ℕ) : engineCounter k = k % 4 := by
  induction k with
  | zero => rfl
  | succ k ih =>
      rw [show engineCounter (k + 1)
          = updateJackpotCounter (engineCounter k) (nextRoundType (engineCounter k)) from rfl,
        ih]
      have h : k % 4 = 0 ∨ k % 4 = 1 ∨ k % 4 = 2 ∨ k % 4 = 3 := by omega
      rcases h with h | h | h | h <;> rw [h] <;>
        simp [nextRoundType, isJackpotNext, updateJackpotCounter,
          JACKPOT_EVERY_N_NORMAL_ROUNDS] <;>
        omega

/-- Claim C7: round-type selection is a deterministic function of the
completed-NORMAL-rounds counter — JACKPOT exactly when the counter is a
positive multiple of `JACKPOT_EVERY_N_NORMAL_ROUNDS = 3` — the counter
resets to 0 when a JACKPOT round completes and increments when a NORMAL
round completes, and consequently the engine run from counter 0 makes
every fourth round (rounds 3, 7, 11, …) a JACKPOT round. -/
theorem jackpot_cadence_spec :
    (∀ c, nextRoundType c = RoundType.JACKPOT
        ↔ ∃ m, 0 < m ∧ c = JACKPOT_EVERY_N_NORMAL_ROUNDS * m)
    ∧ (∀ c, updateJackpotCounter c RoundType.JACKPOT = 0)
    ∧ (∀ c, updateJackpotCounter c RoundType.NORMAL = c + 1)
    ∧ (∀ k, nextRoundType (engineCounter k) = RoundType.JACKPOT ↔ k % 4 = 3) := by
  have hjack : ∀ c, nextRoundType c = RoundType.JACKPOT ↔ (0 < c ∧ c % 3 = 0) := by
    intro c
    constructor
    · intro h
      by_cases hc : isJackpotNext c = true
      · simpa [isJackpotNext, JACKPOT_EVERY_N_NORMAL_ROUNDS] using hc
      · rw [nextRoundType, if_neg hc] at h
        exact RoundType.noConfusion h
    · intro h
      have hc : isJackpotNext c = true := by
        simpa [isJackpotNext, JACKPOT_EVERY_N_NORMAL_ROUNDS] using h
      rw [nextRoundType, if_pos hc]
  refine ⟨?_, fun c => rfl, fun c => rfl, ?_⟩
  · intro c
    rw [hjack c]
    simp only [JACKPOT_EVERY_N_NORMAL_ROUNDS]
    constructor
    · intro ⟨h0, h3⟩
      exact ⟨c / 3, by omega, by omega⟩
    · intro ⟨m, hm, hcm⟩
      constructor <;> omega
  · intro k
    rw [engineCounter_mod k]
    have h : k % 4 = 0 ∨ k % 4 = 1 ∨ k % 4 = 2 ∨ k % 4 = 3 := by omega
    rcases h with h | h | h | h <;> rw [h] <;> rw [hjack] <;> omega

theorem jackpot_cadence_spec_witness :
    nextRoundType 3 = RoundType.JACKPOT :=
  (jackpot_cadence_spec.1 3).mpr ⟨1, Nat.one_pos, by decide⟩

/-- `BET_SECONDS` of the source: the default betting duration. -/
def BET_SECONDS : ℤ := 20

/-- The remaining-seconds computation of `beginRound` (GamePage.tsx line
1713): `Math.max(1, Math.round((serverEnd - now) / 1000))`, with times
as epoch milliseconds. -/
def remainingSeconds (serverEnd now : ℤ) : ℤ :=
  max 1 (jsRound (((serverEnd - now : ℤ) : ℚ) / 1000))

/-- The betting-timer initialisation of `beginRound` (GamePage.tsx lines
1709–1721): `betSeconds` starts from `BET_SECONDS`, is replaced by the
computed remaining seconds when a session-end hint is present and the
value is positive and under the 300-second sanity ceiling, and the hint
is cleared whenever one was present; returns the `timeLeft` value and
the new hint. -/
def beginRoundBetSeconds (sessionEndTime : Option ℤ) (now : ℤ) : ℤ × Option ℤ :=
  match sessionEndTime with
  | none => (BET_SECONDS, none)
  | some serverEnd =>
      let remaining := remainingSeconds serverEnd now
      if 0 < remaining ∧ remaining < 300 then (remaining, none)
      else (BET_SECONDS, none)

lemma jsRound_div1000 (x : ℤ) : jsRound ((x : ℚ) / 1000) = (2 * x + 1000) / 2000 := by
  unfold jsRound
  have h : (x : ℚ) / 1000 + 1 / 2 = ((2 * x + 1000 : ℤ) : ℚ) / ((2000 : ℕ) : ℚ) := by
    push_cast
    ring
  rw [h, Rat.floor_intCast_div_natCast]
  norm_num

lemma remainingSeconds_eq (e now : ℤ) :
    remainingSeconds e now = max 1 ((2 * (e - now) + 1000) / 2000) := by
  unfold remainingSeconds
  rw [jsRound_div1000]

/-- Claim C8: at the start of a betting phase `timeLeft` comes from the
session-end hint only when one is present and the computed remaining
seconds is positive (automatic, because of the `max(1, ·)` clamp) and
under the 300-second sanity ceiling, and from the default `BET_SECONDS`
otherwise; any present hint is consumed and cleared, so the next round
falls back to the default duration. -/
theorem beginRound_timer_spec :
    (∀ now, beginRoundBetSeconds none now = (BET_SECONDS, none))
    ∧ (∀ e now, 0 < remainingSeconds e now)
    ∧ (∀ e now, remainingSeconds e now < 300 →
        beginRoundBetSeconds (some e) now = (remainingSeconds e now, none))
    ∧ (∀ e now, 300 ≤ remainingSeconds e now →
        beginRoundBetSeconds (some e) now = (BET_SECONDS, none))
    ∧ (∀ h now, (beginRoundBetSeconds h now).2 = none)
    ∧ (∀ h now now',
        beginRoundBetSeconds ((beginRoundBetSeconds h now).2) now' = (BET_SECONDS, none))
    ∧ (∀ e now, remainingSeconds e now = max 1 ((2 * (e - now) + 1000) / 2000)) := by
  have hpos : ∀ e now, 0 < remainingSeconds e now := by
    intro e now
    exact lt_of_lt_of_le one_pos (le_max_left _ _)
  have hsnd : ∀ h now, (beginRoundBetSeconds h now).2 = none := by
    intro h now
    cases h with
    | none => rfl
    | some e =>
        show (if 0 < remainingSeconds e now ∧ remainingSeconds e now < 300
            then (remainingSeconds e now, (none : Option ℤ))
            else (BET_SECONDS, none)).2 = none
        split <;> rfl
  refine ⟨fun now => rfl, hpos, ?_, ?_, hsnd, ?_, remainingSeconds_eq⟩
  · intro e now h
    show (if 0 < remainingSeconds e now ∧ remainingSeconds e now < 300
        then (remainingSeconds e now, (none : Option ℤ))
        else (BET_SECONDS, none)) = (remainingSeconds e now, none)
    rw [if_pos ⟨hpos e now, h⟩]
  · intro e now h
    show (if 0 < remainingSeconds e now ∧ remainingSeconds e now < 300
        then (remainingSeconds e now, (none : Option ℤ))
        else (BET_SECONDS, none)) = (BET_SECONDS, none)
    rw [if_neg (fun hcontra => absurd hcontra.2 (not_lt.mpr h))]
  · intro h now now'
    rw [hsnd h now]
    rfl

theorem beginRound_timer_spec_witness :
    beginRoundBetSeconds (some 10000) 0 = (remainingSeconds 10000 0, none) :=
  beginRound_timer_spec.2.2.1 10000 0 (by simp only [remainingSeconds_eq]; decide)

/-- `BOX_THRESHOLDS` of the source: the five milestone thresholds over
`todayWin`. -/
def BOX_THRESHOLDS : List ℕ := [10000, 50000, 100000, 500000, 1000000]

/-- `CHEST_REWARD_AMOUNT_BY_THRESHOLD` of the source, with the `?? 0`
fallback of `openChest` for unknown thresholds. -/
def CHEST_REWARD_AMOUNT_BY_THRESHOLD (t : ℕ) : ℤ :=
  if t = 10000 then 100
  else if t = 50000 then 200
  else if t = 100000 then 300
  else if t = 500000 then 400
  else if t = 1000000 then 500
  else 0

/-- The progress-tracker state of the source: `todayWin`, the
`openedChests` record and the reward popup. -/
structure ChestState where
  todayWin : ℤ
  openedChests : ℕ → Bool
  chestPopup : Option (ℕ × ℤ)

/-- `isChestReady` of the source (GamePage.tsx line 1649):
`todayWin >= threshold && !openedChests[threshold]`. -/
def isChestReady (s : ChestState) (threshold : ℕ) : Bool :=
  decide ((threshold : ℤ) ≤ s.todayWin) && !s.openedChests threshold

/-- `openChest` of the source (GamePage.tsx lines 1663–1673): a no-op
unless the chest is ready, otherwise it marks the chest opened and shows
the reward popup. -/
def openChest (s : ChestState) (threshold : ℕ) : ChestState :=
  if !isChestReady s threshold then s
  else
    { s with
      openedChests := fun t => if t = threshold then true else s.openedChests t
      chestPopup := some (threshold, CHEST_REWARD_AMOUNT_BY_THRESHOLD threshold) }

/-- Claim C9: a milestone is ready exactly when `todayWin` has reached
its threshold and it has not been opened; a single payout lifting
`todayWin` to 1,200,000 makes every not-yet-opened threshold ready at
once; opening is accepted only while ready (no-op otherwise), marks the
chest opened — making it ready never again, hence openable at most once
— yields the fixed reward in the popup, and leaves `todayWin` unchanged
(the reward is not fed back). -/
theorem chest_spec :
    (∀ s t, isChestReady s t = true
        ↔ ((t : ℤ) ≤ s.todayWin ∧ s.openedChests t = false))
    ∧ (∀ s : ChestState, s.todayWin = 1200000 →
        ∀ t ∈ BOX_THRESHOLDS, s.openedChests t = false → isChestReady s t = true)
    ∧ (∀ s t, isChestReady s t = false → openChest s t = s)
    ∧ (∀ s t, isChestReady s t = true →
        (openChest s t).openedChests t = true
        ∧ (openChest s t).chestPopup = some (t, CHEST_REWARD_AMOUNT_BY_THRESHOLD t))
    ∧ (∀ s t, isChestReady (openChest s t) t = false)
    ∧ (∀ s t, (openChest s t).todayWin = s.todayWin) := by
  have hready : ∀ s t, isChestReady s t = true
      ↔ ((t : ℤ) ≤ s.todayWin ∧ s.openedChests t = false) := by
    intro s t
    simp [isChestReady]
  refine ⟨hready, ?_, ?_, ?_, ?_, ?_⟩
  · intro s hw t ht hop
    refine (hready s t).mpr ⟨?_, hop⟩
    rw [hw]
    simp only [BOX_THRESHOLDS, List.mem_cons, List.not_mem_nil, or_false] at ht
    rcases ht with rfl | rfl | rfl | rfl | rfl <;> decide
  · intro s t h
    unfold openChest
    simp [h]
  · intro s t h
    unfold openChest
    simp [h]
  · intro s t
    by_cases h : isChestReady s t = true
    · have hcond : ¬ ((!isChestReady s t) = true) := by simp [h]
      rw [openChest, if_neg hcond]
      simp [isChestReady]
    · have h' : isChestReady s t = false := by simpa using h
      rw [openChest, if_pos (by simp [h'])]
      exact h'
  · intro s t
    unfold openChest
    split <;> rfl

theorem chest_spec_witness :
    (openChest
      { todayWin := 1200000, openedChests := (fun _ => false),
        chestPopup := none } 10000).openedChests 10000 = true
    ∧ (openChest
      { todayWin := 1200000, openedChests := (fun _ => false),
        chestPopup := none } 10000).chestPopup
      = some (10000, CHEST_REWARD_AMOUNT_BY_THRESHOLD 10000) :=
  chest_spec.2.2.2.1
    { todayWin := 1200000, openedChests := (fun _ => false), chestPopup := none }
    10000 (by decide)
